import Mathlib

set_option maxRecDepth 4000

/-!
Verification development for the `ant_tube` streaming application
(src/main.rs, src/server.rs, src/video_streamer.rs).

The development shallowly embeds the session streaming manager:

* the `StreamEvent` channel protocol between the background streaming task
  and the UI (src/main.rs lines 37-43);
* the prebuffering pipelines `process_stream_with_prebuffering`
  (src/main.rs lines 413-478) and `process_stream_with_delayed_pipeline`
  (src/main.rs lines 480-538), together with the surrounding task functions
  `stream_video_data` (lines 335-355) and `run_streaming_task` (lines 278-294);
* the event-applying part of `AntubeApp::update` (src/main.rs lines 120-148)
  and the session reset performed by `connect_and_stream` (lines 250-276);
* the `VideoStreamer` playback sink (src/video_streamer.rs): its `push_chunk`,
  `signal_end_of_stream` and `get_memory_usage` operations.

Byte buffers are modelled as `List Nat`; chunk pulls from the storage source
are `Except String (List Nat)` mirroring `Result<bytes::Bytes, String>`.
External effects of a pipeline run are recorded as a trace of `Action`s:
chunk reads from the storage iterator, successful sends on the unbounded
event channel, sink construction / writes / end-of-stream / drop, and the
literal `std::thread::sleep` call.  The unbounded mpsc channel is modelled
by its remaining capacity `chan : Nat`: a `send` succeeds while the receiver
is alive (capacity positive) and fails forever once the receiver is gone,
which is the behaviour of `tokio::sync::mpsc::UnboundedSender::send`.
GStreamer-level nondeterminism (AppSrc flow results, end-of-stream results,
element construction results) is passed in as explicit parameters.
-/

namespace AntTube

/-- Events sent from a streaming task to the UI; `enum StreamEvent`
(src/main.rs lines 37-43). -/
inductive StreamEvent where
  | serverConnected
  | chunkReceived (size : Nat)
  | streamComplete
  | streamError (error : String)
  | videoStreamerReady
deriving DecidableEq

/-- Whether an event is a `StreamError`. -/
def StreamEvent.isError : StreamEvent → Bool
  | .streamError _ => true
  | _ => false

/-- One call of `push_chunk_to_streamer` (src/main.rs lines 573-585).
`data` is the byte buffer handed to the sink.  `bulk` records the call
site: `true` for the two bulk pushes of the accumulated buffer
(src/main.rs lines 451, 474, 524), `false` for the direct forwarding of a
single chunk after playback has started (line 457). -/
structure SinkWrite where
  data : List Nat
  bulk : Bool
deriving DecidableEq

/-- Externally observable action performed by a streaming task. -/
inductive Action where
  | read (chunk : List Nat)
  | sent (e : StreamEvent)
  | sinkCreate
  | sinkWrite (w : SinkWrite)
  | sinkEos
  | sleepSecs (n : Nat)
  | sinkDrop
deriving DecidableEq

/-- Whether an action is a chunk read from the storage source. -/
def Action.isRead : Action → Bool
  | .read _ => true
  | _ => false

/-- Whether an action is a successful `VideoStreamer::new`. -/
def Action.isSinkCreate : Action → Bool
  | .sinkCreate => true
  | _ => false

/-- Whether an action is a write to the playback sink. -/
def Action.isSinkWrite : Action → Bool
  | .sinkWrite _ => true
  | _ => false

/-- The event carried by a successful channel send, if any. -/
def Action.sentEvent : Action → Option StreamEvent
  | .sent e => some e
  | _ => none

/-- The events successfully delivered on the channel, in order. -/
def eventsOf (tr : List Action) : List StreamEvent :=
  tr.filterMap Action.sentEvent

/-- The sink writes of a trace, in order. -/
def writesOf (tr : List Action) : List SinkWrite :=
  tr.filterMap fun a =>
    match a with
    | .sinkWrite w => some w
    | _ => none

/-- Total number of bytes read from the storage source in a trace. -/
def readBytes (tr : List Action) : Nat :=
  (tr.filterMap fun a =>
    match a with
    | .read c => some c.length
    | _ => none).sum

/-- Total number of bytes written to the playback sink in a trace. -/
def writtenBytes (tr : List Action) : Nat :=
  ((writesOf tr).map fun w => w.data.length).sum

/-- One item of the chunk iterator returned by `Server::stream_data`
(src/server.rs lines 22-41): a byte chunk or a stream error. -/
abbrev ChunkResult := Except String (List Nat)

/-- Constant `const PREBUFFER_SIZE: usize = 40 * 1024 * 1024` (src/main.rs
lines 420 and 486). -/
def PREBUFFER_SIZE : Nat := 40 * 1024 * 1024

/-- Model of `let _ = stream_tx.send(e)` / `stream_tx.send(e).is_err()` on the
unbounded channel with remaining capacity `chan`: the send succeeds and
consumes one unit of capacity while the receiver is alive. -/
def trySend (chan : Nat) (e : StreamEvent) : List Action × Nat :=
  if 0 < chan then ([Action.sent e], chan - 1) else ([], chan)

/-- Result of the chunk loop of `process_stream_with_prebuffering`
(src/main.rs lines 428-466): trace of actions, final buffer, the
`playback_started` flag, the chunk error (if the loop ended in `?`), and
remaining channel capacity. -/
structure PrebufLoopOut where
  trace : List Action
  buffer : List Nat
  started : Bool
  err : Option String
  chan : Nat

/-- The `for chunk_result in stream` loop of
`process_stream_with_prebuffering` (src/main.rs lines 428-466).  Each
iteration reads a chunk (propagating a chunk error via `?`), either
accumulates it in `buffer` — performing the single bulk push when the
buffer first reaches `PREBUFFER_SIZE` — or forwards it directly, and then
sends `ChunkReceived`, breaking out of the loop if the send fails. -/
def prebuf_go (chan : Nat) (buffer : List Nat) (started : Bool) :
    List ChunkResult → PrebufLoopOut
  | [] => ⟨[], buffer, started, none, chan⟩
  | (Except.error m) :: _ => ⟨[], buffer, started, some m, chan⟩
  | (Except.ok chunk) :: rest =>
    if started then
      -- `playback_started`: the chunk is forwarded directly, then
      -- `ChunkReceived` is sent (breaking the loop if the send fails)
      if 0 < chan then
        let out := prebuf_go (chan - 1) buffer true rest
        ⟨Action.read chunk :: Action.sinkWrite ⟨chunk, false⟩ ::
           Action.sent (.chunkReceived chunk.length) :: out.trace,
         out.buffer, out.started, out.err, out.chan⟩
      else
        ⟨[Action.read chunk, Action.sinkWrite ⟨chunk, false⟩], buffer, true, none, chan⟩
    else if PREBUFFER_SIZE ≤ (buffer ++ chunk).length then
      -- the buffer first reaches the threshold: one bulk push of the whole
      -- buffer, `playback_started` becomes true, the buffer is cleared
      if 0 < chan then
        let out := prebuf_go (chan - 1) [] true rest
        ⟨Action.read chunk :: Action.sinkWrite ⟨buffer ++ chunk, true⟩ ::
           Action.sent (.chunkReceived chunk.length) :: out.trace,
         out.buffer, out.started, out.err, out.chan⟩
      else
        ⟨[Action.read chunk, Action.sinkWrite ⟨buffer ++ chunk, true⟩], [], true, none, chan⟩
    else
      -- still below the threshold: the chunk is only buffered
      if 0 < chan then
        let out := prebuf_go (chan - 1) (buffer ++ chunk) false rest
        ⟨Action.read chunk :: Action.sent (.chunkReceived chunk.length) :: out.trace,
         out.buffer, out.started, out.err, out.chan⟩
      else
        ⟨[Action.read chunk], buffer ++ chunk, false, none, chan⟩

/-- Result of running a whole pipeline function: its action trace and its
`Result<(), String>` return value. -/
structure PipelineOut where
  trace : List Action
  result : Except String Unit

/-- Function `process_stream_with_prebuffering` (src/main.rs lines 413-478): run the
chunk loop; on a chunk error the error propagates (`?`); otherwise, if
playback never started and the buffer is non-empty, push the whole buffer
once at end of input. -/
def process_stream_with_prebuffering (cs : List ChunkResult) (chan : Nat) :
    PipelineOut :=
  let out := prebuf_go chan [] false cs
  match out.err with
  | some m => ⟨out.trace, Except.error m⟩
  | none =>
    if out.started = false ∧ out.buffer ≠ [] then
      ⟨out.trace ++ [Action.sinkWrite ⟨out.buffer, true⟩], Except.ok ()⟩
    else
      ⟨out.trace, Except.ok ()⟩

/-- Result of the collection loop of `process_stream_with_delayed_pipeline`
(src/main.rs lines 494-514). -/
structure DelayedLoopOut where
  trace : List Action
  buffer : List Nat
  err : Option String
  chan : Nat

/-- The first phase of `process_stream_with_delayed_pipeline` (src/main.rs
lines 494-514): every chunk is appended to the buffer — there is no
threshold check and no sink write in this loop — and `ChunkReceived` is
sent, breaking if the send fails. -/
def delayed_collect (chan : Nat) (buffer : List Nat) :
    List ChunkResult → DelayedLoopOut
  | [] => ⟨[], buffer, none, chan⟩
  | (Except.error m) :: _ => ⟨[], buffer, some m, chan⟩
  | (Except.ok chunk) :: rest =>
    let buffer' := buffer ++ chunk
    if 0 < chan then
      let out := delayed_collect (chan - 1) buffer' rest
      ⟨Action.read chunk :: Action.sent (.chunkReceived chunk.length) :: out.trace,
       out.buffer, out.err, out.chan⟩
    else
      ⟨[Action.read chunk], buffer', none, chan⟩

/-- Result of `process_stream_with_delayed_pipeline` together with the
remaining channel capacity (the caller sends further events afterwards). -/
structure DelayedOut where
  trace : List Action
  result : Except String Unit
  chan : Nat

/-- Function `process_stream_with_delayed_pipeline` (src/main.rs lines 480-538):
collect the whole stream into `buffer`; afterwards construct the
`VideoStreamer` (`createRes` is the construction outcome), push the
complete buffer as one write, signal end of stream (`eosRes` is the
outcome of `appsrc.end_of_stream()`), sleep 120 seconds, and return; the
local `VideoStreamer` is dropped when the function returns. -/
def process_stream_with_delayed_pipeline (cs : List ChunkResult)
    (createRes eosRes : Except String Unit) (chan : Nat) : DelayedOut :=
  let lo := delayed_collect chan [] cs
  match lo.err with
  | some m => ⟨lo.trace, Except.error m, lo.chan⟩
  | none =>
    match createRes with
    | .error e =>
      ⟨lo.trace, Except.error ("Failed to create video streamer: " ++ e), lo.chan⟩
    | .ok _ =>
      match eosRes with
      | .error e =>
        ⟨lo.trace ++ [Action.sinkCreate, Action.sinkWrite ⟨lo.buffer, true⟩,
                      Action.sinkDrop],
         Except.error ("Failed to signal end of stream: " ++ e), lo.chan⟩
      | .ok _ =>
        ⟨lo.trace ++ [Action.sinkCreate, Action.sinkWrite ⟨lo.buffer, true⟩,
                      Action.sinkEos, Action.sleepSecs 120, Action.sinkDrop],
         Except.ok (), lo.chan⟩

/-- Function `stream_video_data` (src/main.rs lines 335-355): obtain the chunk
stream (`streamRes` is the outcome of `server.stream_data`), run
`process_stream_with_delayed_pipeline`, and send `StreamError` on failure
or `StreamComplete` on success.  The unused `_video_streamer` argument is
dropped when the function returns (`Action.sinkDrop`). -/
def stream_video_data (streamRes : Except String (List ChunkResult))
    (createRes eosRes : Except String Unit) (chan : Nat) : List Action :=
  match streamRes with
  | .error m => (trySend chan (.streamError m)).1 ++ [Action.sinkDrop]
  | .ok cs =>
    let out := process_stream_with_delayed_pipeline cs createRes eosRes chan
    match out.result with
    | .error m => out.trace ++ (trySend out.chan (.streamError m)).1 ++ [Action.sinkDrop]
    | .ok _ => out.trace ++ (trySend out.chan .streamComplete).1 ++ [Action.sinkDrop]

/-- The message received by `wait_for_server` (src/main.rs lines 296-316)
from the server-initialization task. -/
inductive ServerMsg where
  | connected
  | failed (m : String)
  | channelDropped
deriving DecidableEq

/-- Function `run_streaming_task` (src/main.rs lines 278-294): wait for the server
(emitting `ServerConnected` or a `StreamError`), construct the preliminary
`VideoStreamer` via `create_video_streamer` (src/main.rs lines 318-333,
emitting `VideoStreamerReady` or a `StreamError`), then run
`stream_video_data`. -/
def run_streaming_task (server : ServerMsg) (eagerRes : Except String Unit)
    (streamRes : Except String (List ChunkResult))
    (createRes eosRes : Except String Unit) (chan : Nat) : List Action :=
  match server with
  | .failed m => (trySend chan (.streamError m)).1
  | .channelDropped => (trySend chan (.streamError "Server initialization failed")).1
  | .connected =>
    let s1 := trySend chan .serverConnected
    match eagerRes with
    | .error e =>
      s1.1 ++ (trySend s1.2 (.streamError ("Failed to create video streamer: " ++ e))).1
    | .ok _ =>
      let s2 := trySend s1.2 .videoStreamerReady
      s1.1 ++ Action.sinkCreate :: s2.1 ++ stream_video_data streamRes createRes eosRes s2.2

/-- Outcome of one `appsrc.push_buffer(..)` call
(src/video_streamer.rs line 300): success, `Err(gst::FlowError::Eos)`, or
another flow error. -/
inductive FlowResult where
  | ok
  | eos
  | flowErr (m : String)
deriving DecidableEq

/-- State of a `VideoStreamer` (src/video_streamer.rs lines 30-35) together
with the observable state of its AppSrc: `is_eos` and `chunk_queue` are the
struct fields; `pushed_buffers` records the buffers handed to
`appsrc.push_buffer`; `eos_sent` records a successful
`appsrc.end_of_stream()`. -/
structure VideoStreamer where
  is_eos : Bool
  chunk_queue : List (List Nat)
  pushed_buffers : List (List Nat)
  eos_sent : Bool
deriving DecidableEq

/-- Constructor `VideoStreamer::new` (src/video_streamer.rs lines 38-59): the chunk
queue starts empty and `is_eos` starts false. -/
def VideoStreamer.new : VideoStreamer :=
  ⟨false, [], [], false⟩

/-- Method `VideoStreamer::signal_end_of_stream` (src/video_streamer.rs lines
317-326): set `is_eos`, then call `appsrc.end_of_stream()` whose outcome
is `eosRes`. -/
def VideoStreamer.signal_end_of_stream (s : VideoStreamer)
    (eosRes : Except String Unit) : Except String Unit × VideoStreamer :=
  let s1 : VideoStreamer := { s with is_eos := true }
  match eosRes with
  | .ok _ => (Except.ok (), { s1 with eos_sent := true })
  | .error m => (Except.error ("Failed to signal end of stream: " ++ m), s1)

/-- Method `VideoStreamer::push_chunk` (src/video_streamer.rs lines 291-311): if
the stream has ended, fail with "Stream has ended" without touching the
AppSrc; otherwise push the buffer, handling `FlowError::Eos` by calling
`signal_end_of_stream`. -/
def VideoStreamer.push_chunk (s : VideoStreamer) (chunk : List Nat)
    (flow : FlowResult) (eosRes : Except String Unit) :
    Except String Unit × VideoStreamer :=
  if s.is_eos then (Except.error "Stream has ended", s)
  else
    match flow with
    | .ok => (Except.ok (), { s with pushed_buffers := s.pushed_buffers ++ [chunk] })
    | .eos => s.signal_end_of_stream eosRes
    | .flowErr m => (Except.error ("Failed to push buffer to AppSrc: " ++ m), s)

/-- Method `VideoStreamer::get_memory_usage` (src/video_streamer.rs lines
328-333): the summed sizes of the queued chunks. -/
def VideoStreamer.get_memory_usage (s : VideoStreamer) : Nat :=
  (s.chunk_queue.map List.length).sum

/-- A public operation on a `VideoStreamer`, with the corresponding
GStreamer outcomes as data. -/
inductive VSOp where
  | push (chunk : List Nat) (flow : FlowResult) (eosRes : Except String Unit)
  | signalEos (eosRes : Except String Unit)

/-- Apply one operation to a `VideoStreamer`, keeping the resulting state. -/
def VideoStreamer.applyOp (s : VideoStreamer) : VSOp → VideoStreamer
  | .push c f r => (s.push_chunk c f r).2
  | .signalEos r => (s.signal_end_of_stream r).2

/-- Run a sequence of operations on a `VideoStreamer`. -/
def VideoStreamer.runOps (s : VideoStreamer) (ops : List VSOp) : VideoStreamer :=
  ops.foldl VideoStreamer.applyOp s

/-- Struct `StreamStatus` (src/main.rs lines 29-35). -/
structure StreamStatus where
  is_streaming : Bool
  error_message : Option String
  total_bytes_received : Nat
  chunks_received : Nat
deriving DecidableEq

/-- The fields of `struct AntubeApp` (src/main.rs lines 45-55) that the
stream-event handling touches. -/
structure AntubeApp where
  stream_status : StreamStatus
  is_connecting : Bool
  is_playing : Bool
  video_streamer : Option VideoStreamer
  current_memory_usage : Nat
deriving DecidableEq

/-- The `match event` arms of `AntubeApp::update` (src/main.rs lines
122-146): how the consumer applies one received `StreamEvent` to the
application state. -/
def AntubeApp.apply_stream_event (app : AntubeApp) (e : StreamEvent) : AntubeApp :=
  match e with
  | .serverConnected =>
    { app with is_connecting := false,
               stream_status := { app.stream_status with is_streaming := true } }
  | .chunkReceived size =>
    { app with
      stream_status :=
        { app.stream_status with
          chunks_received := app.stream_status.chunks_received + 1,
          total_bytes_received := app.stream_status.total_bytes_received + size },
      current_memory_usage :=
        match app.video_streamer with
        | some s => s.get_memory_usage
        | none => app.current_memory_usage }
  | .videoStreamerReady => { app with is_playing := true }
  | .streamComplete =>
    { app with is_connecting := false,
               stream_status := { app.stream_status with is_streaming := false } }
  | .streamError err =>
    { app with
      is_connecting := false,
      stream_status :=
        { app.stream_status with
          is_streaming := false,
          error_message := some err } }

/-- The `while let Ok(event) = receiver.try_recv()` drain of
`AntubeApp::update` (src/main.rs lines 120-148), applied to a list of
delivered events. -/
def AntubeApp.drain_events (app : AntubeApp) (es : List StreamEvent) : AntubeApp :=
  es.foldl AntubeApp.apply_stream_event app

/-- The state reset performed by `connect_and_stream` when a new session
starts (src/main.rs lines 250-260): memory usage and streamer cleared,
`is_connecting` set, stream status reset. -/
def AntubeApp.connect_and_stream_reset (app : AntubeApp) : AntubeApp :=
  { app with
    current_memory_usage := 0,
    video_streamer := none,
    is_connecting := true,
    stream_status :=

      { is_streaming := false, error_message := none,
        total_bytes_received := 0, chunks_received := 0 } }

/-- The session state as the spec's automaton names it, read off the
application fields with the priority order the UI uses (src/main.rs lines
200-231): connecting, then streaming, then error, else completed. -/
inductive SState where
  | connecting
  | streaming
  | completed
  | error
deriving DecidableEq

/-- Classify the application state into the spec's session state. -/
def AntubeApp.session_state (app : AntubeApp) : SState :=
  if app.is_connecting then SState.connecting
  else if app.stream_status.is_streaming then SState.streaming
  else if app.stream_status.error_message.isSome then SState.error
  else SState.completed

/-- The transition relation of the session automaton in spec §3:
`Connecting → Streaming → (Completed or Error)` or `Connecting → Error`,
with staying in place allowed in the non-terminal states; terminal states
have no outgoing edges. -/
def SState.stepOk : SState → SState → Bool
  | .connecting, .connecting => true
  | .connecting, .streaming => true
  | .connecting, .error => true
  | .streaming, .streaming => true
  | .streaming, .completed => true
  | .streaming, .error => true
  | _, _ => false

/-- The classified states visited while the consumer applies `es` one by
one from `app` always move along automaton edges. -/
def observedChainOk (app : AntubeApp) : List StreamEvent → Prop
  | [] => True
  | e :: rest =>
    SState.stepOk app.session_state (app.apply_stream_event e).session_state = true ∧
    observedChainOk (app.apply_stream_event e) rest

/-- Position (1-based chunk count) at which the cumulative buffered size,
starting from `acc` already-buffered bytes, first reaches the threshold
`T`; `none` if it never does.  This is the spec-side notion "the moment
cumulative buffered bytes first reach the threshold". -/
def crossAtFrom (T acc : Nat) : List (List Nat) → Option Nat
  | [] => none
  | c :: rest =>
    if T ≤ acc + c.length then some 1
    else (crossAtFrom T (acc + c.length) rest).map (· + 1)

/-- Modelled from the spec (testable property §8 and §4.2 step 3-4): the
sink writes the claim predicts for an error-free chunk sequence `cs` —
one bulk write of the buffered prefix at the first threshold crossing
followed by each remaining chunk individually, or a single bulk write of
the whole asset at end of input if the threshold is never reached. -/
def specBulkWrites (T : Nat) (cs : List (List Nat)) : List SinkWrite :=
  match crossAtFrom T 0 cs with
  | some k =>
    ⟨(cs.take k).flatten, true⟩ :: (cs.drop k).map fun c => ⟨c, false⟩
  | none => [⟨cs.flatten, true⟩]

/-! ### Basic lemmas about the `VideoStreamer` model -/

/-- Every operation preserves an already-set `is_eos` flag: no operation
ever clears it. -/
theorem VideoStreamer.applyOp_is_eos (s : VideoStreamer) (op : VSOp)
    (h : s.is_eos = true) : (s.applyOp op).is_eos = true := by
  cases op with
  | push c f r =>
    simp [VideoStreamer.applyOp, VideoStreamer.push_chunk, h]
  | signalEos r =>
    cases r <;>
      simp [VideoStreamer.applyOp, VideoStreamer.signal_end_of_stream]

/-- Flag `is_eos`, once set, survives any sequence of operations. -/
theorem VideoStreamer.runOps_is_eos (ops : List VSOp) :
    ∀ s : VideoStreamer, s.is_eos = true → (s.runOps ops).is_eos = true := by
  induction ops with
  | nil => intro s h; simpa [VideoStreamer.runOps] using h
  | cons op rest ih =>
    intro s h
    simpa [VideoStreamer.runOps, List.foldl_cons] using
      ih (s.applyOp op) (s.applyOp_is_eos op h)

/-- No operation ever touches `chunk_queue`. -/
theorem VideoStreamer.applyOp_chunk_queue (s : VideoStreamer) (op : VSOp) :
    (s.applyOp op).chunk_queue = s.chunk_queue := by
  cases op with
  | push c f r =>
    cases f <;> cases r <;>
      simp [VideoStreamer.applyOp, VideoStreamer.push_chunk,
            VideoStreamer.signal_end_of_stream] <;>
      split <;> simp
  | signalEos r =>
    cases r <;>
      simp [VideoStreamer.applyOp, VideoStreamer.signal_end_of_stream]

/-- Field `chunk_queue` is invariant under any sequence of operations. -/
theorem VideoStreamer.runOps_chunk_queue (ops : List VSOp) :
    ∀ s : VideoStreamer, (s.runOps ops).chunk_queue = s.chunk_queue := by
  induction ops with
  | nil => intro s; simp [VideoStreamer.runOps]
  | cons op rest ih =>
    intro s
    simpa [VideoStreamer.runOps, List.foldl_cons, s.applyOp_chunk_queue op] using
      ih (s.applyOp op)

/-! ### Claim theorems (first batch) -/

/-- C9: once `signal_end_of_stream` has been called (setting the `is_eos`
flag), every subsequent `push_chunk` call — after any further sequence of
operations — returns `Err "Stream has ended"` and leaves the streamer
(and so the underlying AppSrc's `pushed_buffers`) unchanged. -/
theorem claim_C9_push_after_eos_fails (s : VideoStreamer)
    (eosRes : Except String Unit) (ops : List VSOp) (c : List Nat)
    (f : FlowResult) (r : Except String Unit) :
    VideoStreamer.push_chunk
        (VideoStreamer.runOps (s.signal_end_of_stream eosRes).2 ops) c f r =
      (Except.error "Stream has ended",
        VideoStreamer.runOps (s.signal_end_of_stream eosRes).2 ops) := by
  have hset : ((s.signal_end_of_stream eosRes).2).is_eos = true := by
    cases eosRes <;> simp [VideoStreamer.signal_end_of_stream]
  have h := VideoStreamer.runOps_is_eos ops _ hset
  simp [VideoStreamer.push_chunk, h]

/-- C10: for every sequence of operations on a freshly constructed
`VideoStreamer`, the chunk queue stays empty (nothing ever inserts into
it), so `get_memory_usage` always reports 0. -/
theorem claim_C10_memory_usage_zero (ops : List VSOp) :
    (VideoStreamer.runOps VideoStreamer.new ops).get_memory_usage = 0 ∧
    (VideoStreamer.runOps VideoStreamer.new ops).chunk_queue = [] := by
  have h0 : (VideoStreamer.runOps VideoStreamer.new ops).chunk_queue = [] := by
    rw [VideoStreamer.runOps_chunk_queue ops VideoStreamer.new]; rfl
  exact ⟨by simp [VideoStreamer.get_memory_usage, h0], h0⟩

/-- C8: applying any event to the application state never decreases
`total_bytes_received` or `chunks_received`, and an applied
`ChunkReceived` event adds exactly its size to the byte counter and one to
the chunk counter. -/
theorem claim_C8_counters_monotone (app : AntubeApp) (e : StreamEvent) (n : Nat) :
    app.stream_status.total_bytes_received ≤
      (app.apply_stream_event e).stream_status.total_bytes_received ∧
    app.stream_status.chunks_received ≤
      (app.apply_stream_event e).stream_status.chunks_received ∧
    (app.apply_stream_event (.chunkReceived n)).stream_status.total_bytes_received =
      app.stream_status.total_bytes_received + n ∧
    (app.apply_stream_event (.chunkReceived n)).stream_status.chunks_received =
      app.stream_status.chunks_received + 1 := by
  refine ⟨?_, ?_, by simp [AntubeApp.apply_stream_event],
    by simp [AntubeApp.apply_stream_event]⟩ <;>
    cases e <;> simp [AntubeApp.apply_stream_event]

/-- C4 (code bug): a fully successful session constructs TWO
`VideoStreamer`s — one eagerly in `run_streaming_task` before any data is
fetched, one inside the delayed pipeline — and the pipeline's streamer is
dropped (pipeline set to Null) immediately after the fixed
`thread::sleep(120 s)`, not at an explicit teardown.  The full trace of a
one-chunk session exhibits both. -/
theorem claim_C4_two_sinks_and_timer_drop :
    run_streaming_task .connected (.ok ()) (.ok [Except.ok [1, 2, 3]])
        (.ok ()) (.ok ()) 10 =
      [.sent .serverConnected, .sinkCreate, .sent .videoStreamerReady,
       .read [1, 2, 3], .sent (.chunkReceived 3),
       .sinkCreate, .sinkWrite ⟨[1, 2, 3], true⟩, .sinkEos,
       .sleepSecs 120, .sinkDrop, .sent .streamComplete, .sinkDrop] ∧
    (run_streaming_task .connected (.ok ()) (.ok [Except.ok [1, 2, 3]])
        (.ok ()) (.ok ()) 10).countP Action.isSinkCreate = 2 := by
  decide

/-- C3 counterexample: a session whose fetch fails immediately (0 bytes
received, far below the 40 MiB threshold) still constructs a
`VideoStreamer`: `run_streaming_task` builds one unconditionally before
streaming starts, refuting "no Playback Sink (VideoStreamer) is ever
constructed for that session".  The session does emit exactly one `Error`
event. -/
theorem claim_C3_counterexample_sink_created :
    (run_streaming_task .connected (.ok ()) (.ok [Except.error "connection lost"])
        (.ok ()) (.ok ()) 10).countP Action.isSinkCreate = 1 ∧
    ((eventsOf (run_streaming_task .connected (.ok ())
        (.ok [Except.error "connection lost"]) (.ok ()) (.ok ()) 10)).countP
      StreamEvent.isError) = 1 := by
  decide

/-- C2 counterexample: the chunk sequence consisting of a single zero-byte
chunk is non-empty and error-free, yet the prebuffering pipeline performs
ZERO bulk writes (the end-of-input flush is skipped because the buffer is
empty), refuting "never zero" as stated for every non-empty chunk
sequence. -/
theorem claim_C2_counterexample_zero_byte_chunk :
    1 ≤ ([Except.ok ([] : List Nat)] : List ChunkResult).length ∧
    (writesOf (process_stream_with_prebuffering
        [Except.ok ([] : List Nat)] 10).trace).countP (fun w => w.bulk) = 0 := by
  decide

/-- C1 (code bug): on an asset of `PREBUFFER_SIZE + 1` bytes split as a
40 MiB chunk followed by a 1-byte chunk, the cumulative received bytes
reach the prebuffer threshold already at the first chunk, yet the pipeline
actually invoked from the streaming task
(`process_stream_with_delayed_pipeline`) performs no sink write before
either read: both chunk reads precede its single sink write, which happens
only after the sequence is exhausted. -/
theorem claim_C1_delayed_write_after_exhaustion :
    PREBUFFER_SIZE ≤ (List.replicate PREBUFFER_SIZE (0 : Nat)).length ∧
    ((process_stream_with_delayed_pipeline
        [Except.ok (List.replicate PREBUFFER_SIZE (0 : Nat)), Except.ok [7]]
        (.ok ()) (.ok ()) 10).trace.takeWhile fun a => !a.isSinkWrite).countP
      Action.isRead = 2 ∧
    (process_stream_with_delayed_pipeline
        [Except.ok (List.replicate PREBUFFER_SIZE (0 : Nat)), Except.ok [7]]
        (.ok ()) (.ok ()) 10).trace.countP Action.isSinkWrite = 1 := by
  refine ⟨by simp, ?_, ?_⟩ <;>
    simp [process_stream_with_delayed_pipeline, delayed_collect,
          Action.isSinkWrite, Action.isRead, List.takeWhile_cons,
          List.countP_cons]

/-! ### Lemmas about the pipeline loops on error-free input -/

/-- On an error-free stream, the collection loop of the delayed pipeline
never reports an error, grows the buffer by exactly the bytes it read,
performs no sink write, and every event it delivers is `ChunkReceived`. -/
theorem delayed_collect_ok (cs : List (List Nat)) :
    ∀ chan buffer,
      (delayed_collect chan buffer (cs.map Except.ok)).err = none ∧
      (delayed_collect chan buffer (cs.map Except.ok)).buffer.length =
        buffer.length + readBytes (delayed_collect chan buffer (cs.map Except.ok)).trace ∧
      writtenBytes (delayed_collect chan buffer (cs.map Except.ok)).trace = 0 ∧
      ∀ e ∈ eventsOf (delayed_collect chan buffer (cs.map Except.ok)).trace,
        e.isError = false := by
  induction cs with
  | nil =>
    intro chan buffer
    simp [delayed_collect, readBytes, writtenBytes, writesOf, eventsOf]
  | cons c rest ih =>
    intro chan buffer
    by_cases hc : 0 < chan
    · have h := ih (chan - 1) (buffer ++ c)
      simp only [List.map_cons, delayed_collect, if_pos hc]
      simp only [readBytes, writtenBytes, writesOf, eventsOf, List.filterMap_cons,
        Action.sentEvent, List.sum_cons, List.length_append, List.mem_cons] at h ⊢
      refine ⟨h.1, by omega, h.2.2.1, ?_⟩
      rintro e (rfl | he)
      · rfl
      · exact h.2.2.2 e he
    · simp [delayed_collect, if_neg hc, readBytes, writtenBytes, writesOf,
        eventsOf, List.filterMap_cons, Action.sentEvent, List.length_append]

/-- On an error-free stream, the prebuffering loop never reports an error;
bytes written plus bytes still buffered equal bytes initially buffered plus
bytes read; once playback has started the buffer is empty; and every event
it delivers is `ChunkReceived`. -/
theorem prebuf_go_ok (cs : List (List Nat)) :
    ∀ chan buffer started, (started = true → buffer = []) →
      (prebuf_go chan buffer started (cs.map Except.ok)).err = none ∧
      writtenBytes (prebuf_go chan buffer started (cs.map Except.ok)).trace +
          (prebuf_go chan buffer started (cs.map Except.ok)).buffer.length =
        buffer.length + readBytes (prebuf_go chan buffer started (cs.map Except.ok)).trace ∧
      ((prebuf_go chan buffer started (cs.map Except.ok)).started = true →
        (prebuf_go chan buffer started (cs.map Except.ok)).buffer = []) ∧
      ∀ e ∈ eventsOf (prebuf_go chan buffer started (cs.map Except.ok)).trace,
        e.isError = false := by
  induction cs with
  | nil =>
    intro chan buffer started h
    simpa [prebuf_go, readBytes, writtenBytes, writesOf, eventsOf] using h
  | cons c rest ih =>
    intro chan buffer started h
    cases started with
    | true =>
      have hb : buffer = [] := h rfl
      subst hb
      by_cases hc : 0 < chan
      · obtain ⟨h1, h2, h3, h4⟩ := ih (chan - 1) [] true (fun _ => rfl)
        simp only [List.map_cons, prebuf_go, if_pos hc, if_true]
        simp only [readBytes, writtenBytes, writesOf, eventsOf, List.filterMap_cons,
          Action.sentEvent, List.map_cons, List.sum_cons, List.mem_cons,
          List.length_nil] at h1 h2 h3 h4 ⊢
        refine ⟨h1, by omega, h3, ?_⟩
        rintro e (rfl | he)
        · rfl
        · exact h4 e he
      · simp [prebuf_go, if_neg hc, readBytes, writtenBytes, writesOf, eventsOf,
          List.filterMap_cons, Action.sentEvent]
    | false =>
      by_cases hT : PREBUFFER_SIZE ≤ (buffer ++ c).length
      · by_cases hc : 0 < chan
        · obtain ⟨h1, h2, h3, h4⟩ := ih (chan - 1) [] true (fun _ => rfl)
          simp only [List.map_cons, prebuf_go, if_pos hT, if_pos hc, Bool.false_eq_true,
            if_false]
          simp only [readBytes, writtenBytes, writesOf, eventsOf, List.filterMap_cons,
            Action.sentEvent, List.map_cons, List.sum_cons, List.length_append,
            List.length_nil, List.mem_cons] at h1 h2 h3 h4 ⊢
          refine ⟨h1, by omega, h3, ?_⟩
          rintro e (rfl | he)
          · rfl
          · exact h4 e he
        · simp only [List.map_cons, prebuf_go, if_pos hT, if_neg hc, Bool.false_eq_true,
            if_false]
          simp [readBytes, writtenBytes, writesOf, eventsOf, List.filterMap_cons,
            Action.sentEvent, List.length_append]
      · by_cases hc : 0 < chan
        · obtain ⟨h1, h2, h3, h4⟩ := ih (chan - 1) (buffer ++ c) false (by simp)
          simp only [List.map_cons, prebuf_go, if_neg hT, if_pos hc, Bool.false_eq_true,
            if_false]
          simp only [readBytes, writtenBytes, writesOf, eventsOf, List.filterMap_cons,
            Action.sentEvent, List.sum_cons, List.length_append, List.mem_cons] at h1 h2 h3 h4 ⊢
          refine ⟨h1, by omega, h3, ?_⟩
          rintro e (rfl | he)
          · rfl
          · exact h4 e he
        · simp only [List.map_cons, prebuf_go, if_neg hT, if_neg hc, Bool.false_eq_true,
            if_false]
          simp [readBytes, writtenBytes, writesOf, eventsOf, List.filterMap_cons,
            Action.sentEvent, List.length_append]

/-- Function `eventsOf` distributes over trace concatenation. -/
theorem eventsOf_append (t1 t2 : List Action) :
    eventsOf (t1 ++ t2) = eventsOf t1 ++ eventsOf t2 := by
  simp [eventsOf]

/-- Function `writesOf` distributes over trace concatenation. -/
theorem writesOf_append (t1 t2 : List Action) :
    writesOf (t1 ++ t2) = writesOf t1 ++ writesOf t2 := by
  simp [writesOf]

/-- Function `readBytes` distributes over trace concatenation. -/
theorem readBytes_append (t1 t2 : List Action) :
    readBytes (t1 ++ t2) = readBytes t1 + readBytes t2 := by
  simp [readBytes]

/-- Function `writtenBytes` distributes over trace concatenation. -/
theorem writtenBytes_append (t1 t2 : List Action) :
    writtenBytes (t1 ++ t2) = writtenBytes t1 + writtenBytes t2 := by
  simp [writtenBytes, writesOf_append]

/-- The events delivered by one send attempt. -/
theorem eventsOf_trySend (n : Nat) (e : StreamEvent) :
    eventsOf (trySend n e).1 = if 0 < n then [e] else [] := by
  unfold trySend
  split <;> simp [eventsOf, Action.sentEvent]

/-- A delivered event heads the event list. -/
theorem eventsOf_cons_sent (e : StreamEvent) (tr : List Action) :
    eventsOf (Action.sent e :: tr) = e :: eventsOf tr := by
  simp [eventsOf, Action.sentEvent]

/-- A sink construction contributes no event. -/
theorem eventsOf_cons_sinkCreate (tr : List Action) :
    eventsOf (Action.sinkCreate :: tr) = eventsOf tr := by
  simp [eventsOf, Action.sentEvent]

/-- A non-send action contributes no event. -/
theorem eventsOf_cons_other (a : Action) (tr : List Action)
    (h : a.sentEvent = none) :
    eventsOf (a :: tr) = eventsOf tr := by
  simp [eventsOf, h]

/-- A send attempt of a non-error event contributes no error event. -/
theorem countP_isError_eventsOf_trySend (n : Nat) (e : StreamEvent)
    (h : e.isError = false) :
    ((trySend n e).1.filterMap Action.sentEvent).countP StreamEvent.isError = 0 := by
  unfold trySend
  split <;> simp [Action.sentEvent, h]

/-- With the receiver gone from the start (capacity 0), the prebuffering
loop delivers no event. -/
theorem prebuf_go_zero_events (cs : List ChunkResult) (buffer : List Nat)
    (started : Bool) :
    eventsOf (prebuf_go 0 buffer started cs).trace = [] := by
  cases cs with
  | nil => simp [prebuf_go, eventsOf]
  | cons c rest =>
    cases c with
    | error m => simp [prebuf_go, eventsOf]
    | ok ch =>
      cases started <;> by_cases hT : PREBUFFER_SIZE ≤ buffer.length + ch.length <;>
        simp [prebuf_go, hT, eventsOf, Action.sentEvent]

/-- With the receiver gone from the start, the delayed collection loop
delivers no event. -/
theorem delayed_collect_zero_events (cs : List ChunkResult) (buffer : List Nat) :
    eventsOf (delayed_collect 0 buffer cs).trace = [] := by
  cases cs with
  | nil => simp [delayed_collect, eventsOf]
  | cons c rest =>
    cases c with
    | error m => simp [delayed_collect, eventsOf]
    | ok ch => simp [delayed_collect, eventsOf, Action.sentEvent]

/-- On an error-free stream, the delayed pipeline (with successful sink
construction and end-of-stream) returns `Ok(())` for every channel
capacity. -/
theorem delayed_pipeline_result_ok (cs : List (List Nat)) (chan : Nat) :
    (process_stream_with_delayed_pipeline (cs.map Except.ok)
        (.ok ()) (.ok ()) chan).result = .ok () := by
  obtain ⟨h1, -, -, -⟩ := delayed_collect_ok cs chan []
  simp [process_stream_with_delayed_pipeline, h1]

/-- C5: byte conservation.  On an error-free chunk sequence (for every
channel capacity, hence also when the consumer disappears part-way), the
bytes written to the playback sink equal the bytes read from the storage
source, in both the prebuffering pipeline and the delayed pipeline. -/
theorem claim_C5_byte_conservation (cs : List (List Nat)) (chan : Nat) :
    writtenBytes (process_stream_with_prebuffering (cs.map Except.ok) chan).trace =
      readBytes (process_stream_with_prebuffering (cs.map Except.ok) chan).trace ∧
    writtenBytes (process_stream_with_delayed_pipeline (cs.map Except.ok)
        (.ok ()) (.ok ()) chan).trace =
      readBytes (process_stream_with_delayed_pipeline (cs.map Except.ok)
        (.ok ()) (.ok ()) chan).trace := by
  constructor
  · obtain ⟨h1, h2, h3, -⟩ := prebuf_go_ok cs chan [] false (fun h => rfl)
    simp only [List.length_nil, Nat.zero_add] at h2
    simp only [process_stream_with_prebuffering, h1]
    by_cases hb : (prebuf_go chan [] false (cs.map Except.ok)).buffer = []
    · have hcond : ¬ ((prebuf_go chan [] false (cs.map Except.ok)).started = false ∧
          (prebuf_go chan [] false (cs.map Except.ok)).buffer ≠ []) := by
        intro hcontr
        exact hcontr.2 hb
      rw [if_neg hcond]
      dsimp only
      have : (prebuf_go chan [] false (cs.map Except.ok)).buffer.length = 0 := by
        simp [hb]
      omega
    · have hst : (prebuf_go chan [] false (cs.map Except.ok)).started = false := by
        cases hstarted : (prebuf_go chan [] false (cs.map Except.ok)).started
        · rfl
        · exact absurd (h3 hstarted) hb
      rw [if_pos ⟨hst, hb⟩]
      dsimp only
      rw [writtenBytes_append, readBytes_append]
      have hw : writtenBytes [Action.sinkWrite
          ⟨(prebuf_go chan [] false (cs.map Except.ok)).buffer, true⟩] =
          (prebuf_go chan [] false (cs.map Except.ok)).buffer.length := by
        simp [writtenBytes, writesOf]
      have hr : readBytes [Action.sinkWrite
          ⟨(prebuf_go chan [] false (cs.map Except.ok)).buffer, true⟩] = 0 := by
        simp [readBytes]
      omega
  · obtain ⟨h1, h2, h3, -⟩ := delayed_collect_ok cs chan []
    simp only [List.length_nil, Nat.zero_add] at h2
    simp only [process_stream_with_delayed_pipeline, h1]
    rw [writtenBytes_append, readBytes_append]
    have hw : writtenBytes [Action.sinkCreate,
        Action.sinkWrite ⟨(delayed_collect chan [] (cs.map Except.ok)).buffer, true⟩,
        Action.sinkEos, Action.sleepSecs 120, Action.sinkDrop] =
        (delayed_collect chan [] (cs.map Except.ok)).buffer.length := by
      simp [writtenBytes, writesOf]
    have hr : readBytes [Action.sinkCreate,
        Action.sinkWrite ⟨(delayed_collect chan [] (cs.map Except.ok)).buffer, true⟩,
        Action.sinkEos, Action.sleepSecs 120, Action.sinkDrop] = 0 := by
      simp [readBytes]
    omega

/-- C7: a closed event channel is harmless for the producing task.  On an
error-free stream: both pipelines still return `Ok(())` for every channel
capacity (a failed send never turns into a session error); with the
receiver gone from the start they simply deliver no events at all; and a
fully successful session never delivers a `StreamError` event for any
capacity. -/
theorem claim_C7_channel_closure_nonfatal (cs : List (List Nat)) (chan : Nat) :
    (process_stream_with_prebuffering (cs.map Except.ok) chan).result = .ok () ∧
    (process_stream_with_delayed_pipeline (cs.map Except.ok)
        (.ok ()) (.ok ()) chan).result = .ok () ∧
    eventsOf (process_stream_with_prebuffering (cs.map Except.ok) 0).trace = [] ∧
    eventsOf (process_stream_with_delayed_pipeline (cs.map Except.ok)
        (.ok ()) (.ok ()) 0).trace = [] ∧
    (eventsOf (run_streaming_task .connected (.ok ()) (.ok (cs.map Except.ok))
        (.ok ()) (.ok ()) chan)).countP StreamEvent.isError = 0 := by
  refine ⟨?_, delayed_pipeline_result_ok cs chan, ?_, ?_, ?_⟩
  · obtain ⟨h1, -, -, -⟩ := prebuf_go_ok cs chan [] false (fun h => rfl)
    simp only [process_stream_with_prebuffering, h1]
    split <;> rfl
  · obtain ⟨h1, -, -, -⟩ := prebuf_go_ok cs 0 [] false (fun h => rfl)
    simp only [process_stream_with_prebuffering, h1]
    split
    · dsimp only
      rw [eventsOf_append, prebuf_go_zero_events]
      simp [eventsOf, Action.sentEvent]
    · exact prebuf_go_zero_events _ _ _
  · obtain ⟨h1, -, -, -⟩ := delayed_collect_ok cs 0 []
    simp only [process_stream_with_delayed_pipeline, h1]
    rw [eventsOf_append, delayed_collect_zero_events]
    simp [eventsOf, Action.sentEvent]
  · obtain ⟨h1, -, -, h4⟩ :=
      delayed_collect_ok cs (trySend (trySend chan .serverConnected).2
        .videoStreamerReady).2 []
    have h4' : ((delayed_collect (trySend (trySend chan .serverConnected).2
        .videoStreamerReady).2 [] (cs.map Except.ok)).trace.filterMap
          Action.sentEvent).countP StreamEvent.isError = 0 := by
      refine List.countP_eq_zero.2 ?_
      intro a ha
      simp [h4 a (by simpa [eventsOf] using ha)]
    simp only [run_streaming_task, stream_video_data,
      process_stream_with_delayed_pipeline, h1]
    simp only [eventsOf, List.filterMap_append, List.filterMap_cons, Action.sentEvent,
      List.filterMap_nil, List.countP_append, List.countP_nil, h4']
    simp [countP_isError_eventsOf_trySend, StreamEvent.isError]

/-! ### The single-bulk-write characterization of the prebuffering pipeline -/

/-- The end-of-input flush of `process_stream_with_prebuffering`
(src/main.rs lines 469-475), as a function of the loop outcome. -/
def prebufFlush (o : PrebufLoopOut) : List SinkWrite :=
  if o.started = false ∧ o.buffer ≠ [] then [⟨o.buffer, true⟩] else []

/-- Unfolding of the flush on a literal loop outcome. -/
theorem prebufFlush_mk (t : List Action) (b : List Nat) (s : Bool)
    (e : Option String) (ch : Nat) :
    prebufFlush ⟨t, b, s, e, ch⟩ =
      if s = false ∧ b ≠ [] then [⟨b, true⟩] else [] := rfl

/-- Modelled from the spec, generalized over an already-accumulated
buffer: the writes predicted for the remaining chunks `cs` when `buffer`
has been accumulated so far and playback has not started. -/
def specFrom (T : Nat) (buffer : List Nat) (cs : List (List Nat)) : List SinkWrite :=
  match crossAtFrom T buffer.length cs with
  | some k =>
    ⟨buffer ++ (cs.take k).flatten, true⟩ :: (cs.drop k).map fun c => ⟨c, false⟩
  | none =>
    if buffer ++ cs.flatten = [] then [] else [⟨buffer ++ cs.flatten, true⟩]

/-- After playback has started, the loop forwards every remaining chunk
individually (given enough channel capacity), completes with
`playback_started` still set and an empty buffer, and never errors. -/
theorem prebuf_go_started_writes (cs : List (List Nat)) :
    ∀ chan, cs.length ≤ chan →
      writesOf (prebuf_go chan [] true (cs.map Except.ok)).trace =
        cs.map (fun c => (⟨c, false⟩ : SinkWrite)) ∧
      (prebuf_go chan [] true (cs.map Except.ok)).started = true ∧
      (prebuf_go chan [] true (cs.map Except.ok)).buffer = [] := by
  induction cs with
  | nil =>
    intro chan _
    simp [prebuf_go, writesOf]
  | cons c rest ih =>
    intro chan hlen
    simp only [List.length_cons] at hlen
    have hc : 0 < chan := by omega
    obtain ⟨ih1, ih2, ih3⟩ := ih (chan - 1) (by omega)
    simp only [List.map_cons, prebuf_go, if_pos hc, if_true]
    simp only [writesOf, List.filterMap_cons] at ih1 ⊢
    simp [ih1, ih2, ih3]

/-- Core characterization: starting below the threshold with `buffer`
accumulated, the loop's writes followed by the end-of-input flush are
exactly the spec-predicted writes, provided the channel has capacity for
every chunk. -/
theorem prebuf_go_writes_spec (cs : List (List Nat)) :
    ∀ chan buffer, cs.length ≤ chan → buffer.length < PREBUFFER_SIZE →
      writesOf (prebuf_go chan buffer false (cs.map Except.ok)).trace ++
          prebufFlush (prebuf_go chan buffer false (cs.map Except.ok)) =
        specFrom PREBUFFER_SIZE buffer cs := by
  induction cs with
  | nil =>
    intro chan buffer _ _
    by_cases hb : buffer = [] <;>
      simp [prebuf_go, writesOf, prebufFlush, specFrom, crossAtFrom, hb]
  | cons c rest ih =>
    intro chan buffer hlen hbuf
    simp only [List.length_cons] at hlen
    have hc : 0 < chan := by omega
    by_cases hT : PREBUFFER_SIZE ≤ (buffer ++ c).length
    · -- the threshold is crossed at this chunk
      obtain ⟨hs1, hs2, hs3⟩ := prebuf_go_started_writes rest (chan - 1) (by omega)
      simp only [List.map_cons, prebuf_go, if_pos hT, if_pos hc, Bool.false_eq_true,
        if_false]
      have hT2 : PREBUFFER_SIZE ≤ buffer.length + c.length := by
        simpa [List.length_append] using hT
      simp only [specFrom, crossAtFrom, if_pos hT2]
      simp only [writesOf, List.filterMap_cons, prebufFlush, hs2, hs3] at hs1 ⊢
      simp [hs1, hs2]
    · -- still below the threshold
      have hT2 : ¬ PREBUFFER_SIZE ≤ buffer.length + c.length := by
        simpa [List.length_append] using hT
      have hbuf2 : (buffer ++ c).length < PREBUFFER_SIZE := by
        simpa [List.length_append] using Nat.lt_of_not_le hT2
      have hrec := ih (chan - 1) (buffer ++ c) (by omega) hbuf2
      simp only [List.map_cons, prebuf_go, if_neg hT, if_pos hc, Bool.false_eq_true,
        if_false]
      simp only [writesOf, List.filterMap_cons] at hrec ⊢
      simp only [prebufFlush_mk, prebufFlush] at hrec ⊢
      -- the left-hand sides coincide; rewrite the right-hand side
      rw [hrec]
      simp only [specFrom, crossAtFrom, if_neg hT2, List.length_append]
      cases hcross : crossAtFrom PREBUFFER_SIZE (buffer.length + c.length) rest with
      | none =>
        simp [hcross, List.append_assoc]
      | some j =>
        simp [hcross, List.append_assoc, List.take_succ_cons, List.drop_succ_cons]

/-- On an error-free stream the writes of the whole prebuffering pipeline
are the loop's writes followed by the end-of-input flush. -/
theorem process_prebuf_writes (cs : List (List Nat)) (chan : Nat) :
    writesOf (process_stream_with_prebuffering (cs.map Except.ok) chan).trace =
      writesOf (prebuf_go chan [] false (cs.map Except.ok)).trace ++
        prebufFlush (prebuf_go chan [] false (cs.map Except.ok)) := by
  obtain ⟨h1, -, -, -⟩ := prebuf_go_ok cs chan [] false (fun h => rfl)
  simp only [process_stream_with_prebuffering, h1, prebufFlush]
  split
  · dsimp only
    rw [writesOf_append]
    simp [writesOf]
  · simp

/-- For an asset with at least one byte, the generalized spec writes from
an empty buffer are the claim's predicted writes. -/
theorem specFrom_nil_buffer (cs : List (List Nat)) (hpos : 0 < cs.flatten.length) :
    specFrom PREBUFFER_SIZE [] cs = specBulkWrites PREBUFFER_SIZE cs := by
  have hne : cs.flatten ≠ [] := by
    intro h
    rw [h] at hpos
    simp at hpos
  simp only [specFrom, specBulkWrites, List.length_nil, List.nil_append]
  cases hcross : crossAtFrom PREBUFFER_SIZE 0 cs with
  | none => simp [hne]
  | some k => rfl

/-- The spec-predicted writes contain exactly one bulk write. -/
theorem specBulkWrites_one_bulk (T : Nat) (cs : List (List Nat)) :
    (specBulkWrites T cs).countP (fun w => w.bulk) = 1 := by
  simp only [specBulkWrites]
  cases hcross : crossAtFrom T 0 cs with
  | none => simp
  | some k =>
    simp only [List.countP_cons]
    rw [List.countP_map]
    simp [Function.comp]

/-- C2 (amended: the asset must have at least one byte in total): on an
error-free chunk sequence with positive total size, delivered with enough
channel capacity, the prebuffering pipeline's sink writes are exactly one
bulk write of the buffered prefix — at the first moment the cumulative
buffered bytes reach the threshold, or at end of input if the threshold is
never reached — followed by each remaining chunk forwarded individually;
in particular there is exactly one bulk write, never zero, never two. -/
theorem claim_C2_single_bulk_write (cs : List (List Nat)) (chan : Nat)
    (hlen : cs.length ≤ chan) (hpos : 0 < cs.flatten.length) :
    writesOf (process_stream_with_prebuffering (cs.map Except.ok) chan).trace =
      specBulkWrites PREBUFFER_SIZE cs ∧
    (writesOf (process_stream_with_prebuffering (cs.map Except.ok) chan).trace).countP
      (fun w => w.bulk) = 1 := by
  have heq : writesOf (process_stream_with_prebuffering (cs.map Except.ok) chan).trace =
      specBulkWrites PREBUFFER_SIZE cs := by
    rw [process_prebuf_writes, prebuf_go_writes_spec cs chan [] hlen (by
      simp [PREBUFFER_SIZE])]
    exact specFrom_nil_buffer cs hpos
  exact ⟨heq, by rw [heq]; exact specBulkWrites_one_bulk _ _⟩

/-- C2 witness: a concrete one-chunk, 3-byte asset satisfies the
hypotheses, and the theorem instantiates to it. -/
theorem claim_C2_witness :
    ([[1, 2, 3]] : List (List Nat)).length ≤ 5 ∧
    0 < ([[1, 2, 3]] : List (List Nat)).flatten.length ∧
    (writesOf (process_stream_with_prebuffering ([[1, 2, 3]].map Except.ok) 5).trace =
        specBulkWrites PREBUFFER_SIZE [[1, 2, 3]] ∧
      (writesOf (process_stream_with_prebuffering
          ([[1, 2, 3]].map Except.ok) 5).trace).countP (fun w => w.bulk) = 1) :=
  ⟨by decide, by decide, claim_C2_single_bulk_write [[1, 2, 3]] 5 (by decide) (by decide)⟩

/-! ### Sessions that fail mid-stream -/

/-- The trace produced by successfully reading and reporting a list of
chunks: for each chunk, a read followed by a delivered `ChunkReceived`. -/
def chunkTrace : List (List Nat) → List Action
  | [] => []
  | c :: rest =>
    Action.read c :: Action.sent (.chunkReceived c.length) :: chunkTrace rest

/-- The events of a chunk trace are exactly the `ChunkReceived` events. -/
theorem eventsOf_chunkTrace (pre : List (List Nat)) :
    eventsOf (chunkTrace pre) = pre.map fun c => StreamEvent.chunkReceived c.length := by
  induction pre with
  | nil => simp [chunkTrace, eventsOf]
  | cons c p ih =>
    simp only [eventsOf] at ih
    simp only [chunkTrace, eventsOf, List.filterMap_cons, Action.sentEvent,
      List.map_cons]
    simp [ih]

/-- A chunk trace constructs no sink. -/
theorem chunkTrace_countP_create (pre : List (List Nat)) :
    (chunkTrace pre).countP Action.isSinkCreate = 0 := by
  induction pre with
  | nil => simp [chunkTrace]
  | cons c p ih => simp [chunkTrace, List.countP_cons, Action.isSinkCreate, ih]

/-- A chunk trace writes nothing to the sink. -/
theorem chunkTrace_countP_write (pre : List (List Nat)) :
    (chunkTrace pre).countP Action.isSinkWrite = 0 := by
  induction pre with
  | nil => simp [chunkTrace]
  | cons c p ih => simp [chunkTrace, List.countP_cons, Action.isSinkWrite, ih]

/-- Characterization of the delayed collection loop when the stream yields
`pre` good chunks and then fails, with capacity for every good chunk: the
loop reads and reports the good chunks, accumulates them, and stops at the
failure. -/
theorem delayed_collect_err (pre : List (List Nat)) (m : String)
    (rest : List ChunkResult) :
    ∀ chan buffer, pre.length ≤ chan →
      delayed_collect chan buffer (pre.map Except.ok ++ Except.error m :: rest) =
        ⟨chunkTrace pre, buffer ++ pre.flatten, some m, chan - pre.length⟩ := by
  induction pre with
  | nil =>
    intro chan buffer _
    simp [delayed_collect, chunkTrace]
  | cons c p ih =>
    intro chan buffer hlen
    simp only [List.length_cons] at hlen
    have hc : 0 < chan := by omega
    have hrec := ih (chan - 1) (buffer ++ c) (by omega)
    simp only [List.map_cons, List.cons_append, delayed_collect, if_pos hc,
      List.append_eq, hrec, chunkTrace]
    simp only [DelayedLoopOut.mk.injEq, true_and]
    constructor
    · simp [List.flatten_cons, List.append_assoc]
    · simp only [List.length_cons]
      omega

/-- Full trace of a session whose stream fails after `pre` good chunks
(with the consumer alive): server connect, the eager sink construction,
ready event, the good chunks, a single error event, and the drop of the
eager streamer. -/
theorem run_err_trace (pre : List (List Nat)) (m : String) (rest : List ChunkResult)
    (chan : Nat) (hlen : pre.length + 3 ≤ chan) :
    run_streaming_task .connected (.ok ())
        (.ok (pre.map Except.ok ++ Except.error m :: rest)) (.ok ()) (.ok ()) chan =
      Action.sent .serverConnected :: Action.sinkCreate ::
        Action.sent .videoStreamerReady ::
        (chunkTrace pre ++ [Action.sent (.streamError m), Action.sinkDrop]) := by
  have h1 : 0 < chan := by omega
  have h2 : 0 < chan - 1 := by omega
  have h3 : pre.length < chan - 1 - 1 := by omega
  have hlo := delayed_collect_err pre m rest (chan - 1 - 1) [] (by omega)
  simp only [run_streaming_task, trySend, if_pos h1, if_pos h2, stream_video_data,
    process_stream_with_delayed_pipeline, hlo]
  simp [h3]

/-- C3 (amended: the eager sink of session setup is outside the claim): a
session whose chunk sequence fails after `pre` good chunks whose total is
below the prebuffer threshold delivers its `ChunkReceived` events followed
by exactly one `Error` event as the final event and terminates; the
accumulated buffer is discarded (no sink write ever happens); and no
`VideoStreamer` is constructed by the streaming pipeline after the failure
— the single `VideoStreamer` of the session is the one `run_streaming_task`
constructs unconditionally before any data is fetched. -/
theorem claim_C3_error_before_threshold (pre : List (List Nat)) (m : String)
    (rest : List ChunkResult) (chan : Nat) (tr : List Action)
    (hlen : pre.length + 3 ≤ chan)
    (hsize : pre.flatten.length < PREBUFFER_SIZE)
    (htr : tr = run_streaming_task .connected (.ok ())
      (.ok (pre.map Except.ok ++ Except.error m :: rest)) (.ok ()) (.ok ()) chan) :
    eventsOf tr = .serverConnected :: .videoStreamerReady ::
      (pre.map fun c => StreamEvent.chunkReceived c.length) ++ [.streamError m] ∧
    (eventsOf tr).countP StreamEvent.isError = 1 ∧
    tr.countP Action.isSinkCreate = 1 ∧
    (tr.takeWhile fun a => !a.isRead).countP Action.isSinkCreate = 1 ∧
    tr.countP Action.isSinkWrite = 0 := by
  subst htr
  rw [run_err_trace pre m rest chan hlen]
  have hev : eventsOf (chunkTrace pre) =
      pre.map fun c => StreamEvent.chunkReceived c.length := eventsOf_chunkTrace pre
  simp only [eventsOf] at hev
  refine ⟨?_, ?_, ?_, ?_, ?_⟩
  · simp only [eventsOf, List.filterMap_cons, Action.sentEvent, List.filterMap_append,
      hev]
    simp
  · simp only [eventsOf, List.filterMap_cons, Action.sentEvent, List.filterMap_append,
      hev, List.countP_cons, List.countP_append]
    have : (List.countP StreamEvent.isError
        (pre.map fun c => StreamEvent.chunkReceived c.length)) = 0 := by
      rw [List.countP_map]
      simp [Function.comp, StreamEvent.isError]
    simp [this, StreamEvent.isError]
  · simp [List.countP_cons, List.countP_append, Action.isSinkCreate,
      chunkTrace_countP_create]
  · cases pre with
    | nil =>
      simp [chunkTrace, List.takeWhile_cons, Action.isRead, Action.isSinkCreate,
        List.countP_cons]
    | cons c p =>
      simp [chunkTrace, List.takeWhile_cons, Action.isRead, Action.isSinkCreate,
        List.countP_cons]
  · simp [List.countP_cons, List.countP_append, Action.isSinkWrite,
      chunkTrace_countP_write]

/-- C3 witness: a concrete session with one 2-byte chunk followed by an
I/O failure satisfies the hypotheses, and the theorem instantiates to it. -/
theorem claim_C3_witness :
    ([[1, 2]] : List (List Nat)).length + 3 ≤ 6 ∧
    ([[1, 2]] : List (List Nat)).flatten.length < PREBUFFER_SIZE ∧
    (eventsOf (run_streaming_task .connected (.ok ())
        (.ok ([[1, 2]].map Except.ok ++ Except.error "io error" :: []))
        (.ok ()) (.ok ()) 6) = .serverConnected :: .videoStreamerReady ::
          ([[1, 2]].map fun c => StreamEvent.chunkReceived c.length) ++
            [.streamError "io error"] ∧
      (eventsOf (run_streaming_task .connected (.ok ())
        (.ok ([[1, 2]].map Except.ok ++ Except.error "io error" :: []))
        (.ok ()) (.ok ()) 6)).countP StreamEvent.isError = 1 ∧
      (run_streaming_task .connected (.ok ())
        (.ok ([[1, 2]].map Except.ok ++ Except.error "io error" :: []))
        (.ok ()) (.ok ()) 6).countP Action.isSinkCreate = 1 ∧
      ((run_streaming_task .connected (.ok ())
        (.ok ([[1, 2]].map Except.ok ++ Except.error "io error" :: []))
        (.ok ()) (.ok ()) 6).takeWhile fun a => !a.isRead).countP
          Action.isSinkCreate = 1 ∧
      (run_streaming_task .connected (.ok ())
        (.ok ([[1, 2]].map Except.ok ++ Except.error "io error" :: []))
        (.ok ()) (.ok ()) 6).countP Action.isSinkWrite = 0) :=
  ⟨by decide, by decide,
    claim_C3_error_before_threshold [[1, 2]] "io error" [] 6 _
      (by decide) (by decide) rfl⟩

/-! ### The session state automaton -/

/-- An application state in the middle of a session: no longer connecting,
currently streaming. -/
def StreamingShape (app : AntubeApp) : Prop :=
  app.is_connecting = false ∧ app.stream_status.is_streaming = true

/-- A streaming-shaped state classifies as `Streaming`. -/
theorem session_state_shaped (app : AntubeApp) (h : StreamingShape app) :
    app.session_state = SState.streaming := by
  simp [AntubeApp.session_state, h.1, h.2]

/-- Applying `ServerConnected` yields a streaming-shaped state. -/
theorem shape_apply_serverConnected (app : AntubeApp) :
    StreamingShape (app.apply_stream_event .serverConnected) := by
  simp [AntubeApp.apply_stream_event, StreamingShape]

/-- Event `VideoStreamerReady` preserves the streaming shape. -/
theorem shape_apply_videoStreamerReady (app : AntubeApp) (h : StreamingShape app) :
    StreamingShape (app.apply_stream_event .videoStreamerReady) := by
  simpa [AntubeApp.apply_stream_event, StreamingShape] using h

/-- Event `ChunkReceived` preserves the streaming shape. -/
theorem shape_apply_chunkReceived (app : AntubeApp) (h : StreamingShape app)
    (n : Nat) :
    StreamingShape (app.apply_stream_event (.chunkReceived n)) := by
  simpa [AntubeApp.apply_stream_event, StreamingShape] using h

/-- From a streaming-shaped state, every single applied event moves along
an automaton edge: the state stays `Streaming` or moves to a terminal
state. -/
theorem chain_single_shaped (app : AntubeApp) (e : StreamEvent)
    (h : StreamingShape app) :
    observedChainOk app [e] := by
  refine ⟨?_, trivial⟩
  rw [session_state_shaped app h]
  cases e with
  | serverConnected =>
    rw [session_state_shaped _ (shape_apply_serverConnected app)]; rfl
  | videoStreamerReady =>
    rw [session_state_shaped _ (shape_apply_videoStreamerReady app h)]; rfl
  | chunkReceived n =>
    rw [session_state_shaped _ (shape_apply_chunkReceived app h n)]; rfl
  | streamComplete =>
    cases herr : app.stream_status.error_message <;>
      simp [AntubeApp.apply_stream_event, AntubeApp.session_state, herr,
        SState.stepOk]
  | streamError m =>
    simp [AntubeApp.apply_stream_event, AntubeApp.session_state, SState.stepOk]

/-- The automaton chain splits over list concatenation. -/
theorem observedChainOk_append (l1 : List StreamEvent) :
    ∀ (app : AntubeApp) (l2 : List StreamEvent),
      observedChainOk app (l1 ++ l2) ↔
        observedChainOk app l1 ∧
          observedChainOk (app.drain_events l1) l2 := by
  induction l1 with
  | nil =>
    intro app l2
    simp [observedChainOk, AntubeApp.drain_events]
  | cons e r ih =>
    intro app l2
    simp only [List.cons_append, observedChainOk, AntubeApp.drain_events,
      List.foldl_cons, List.append_eq]
    rw [ih]
    simp [AntubeApp.drain_events, and_assoc]

/-- A single send attempt from a streaming-shaped state is chain-safe. -/
theorem chain_trySend_shaped (app : AntubeApp) (n : Nat) (e : StreamEvent)
    (h : StreamingShape app) :
    observedChainOk app (eventsOf (trySend n e).1) := by
  rw [eventsOf_trySend]
  split
  · exact chain_single_shaped app e h
  · trivial

/-- Draining the events of a `VideoStreamerReady` send attempt keeps the
streaming shape. -/
theorem drain_trySend_vsr_shaped (app : AntubeApp) (n : Nat)
    (h : StreamingShape app) :
    StreamingShape (app.drain_events (eventsOf (trySend n .videoStreamerReady).1)) := by
  rw [eventsOf_trySend]
  split
  · simpa [AntubeApp.drain_events] using shape_apply_videoStreamerReady app h
  · simpa [AntubeApp.drain_events] using h

/-- The events of the delayed collection loop keep the consumer inside the
`Streaming` state: the chain holds and the final drained state is still
streaming-shaped. -/
theorem delayed_collect_chain (cs : List ChunkResult) :
    ∀ chan buffer (app : AntubeApp), StreamingShape app →
      observedChainOk app (eventsOf (delayed_collect chan buffer cs).trace) ∧
      StreamingShape
        (app.drain_events (eventsOf (delayed_collect chan buffer cs).trace)) := by
  induction cs with
  | nil =>
    intro chan buffer app h
    refine ⟨?_, ?_⟩ <;>
      simp [delayed_collect, eventsOf, AntubeApp.drain_events, observedChainOk, h]
  | cons c rest ih =>
    intro chan buffer app h
    cases c with
    | error m =>
      refine ⟨?_, ?_⟩ <;>
        simp [delayed_collect, eventsOf, AntubeApp.drain_events, observedChainOk, h]
    | ok ch =>
      by_cases hc : 0 < chan
      · obtain ⟨ih1, ih2⟩ := ih (chan - 1) (buffer ++ ch)
          (app.apply_stream_event (.chunkReceived ch.length))
          (shape_apply_chunkReceived app h ch.length)
        simp only [delayed_collect, if_pos hc]
        rw [eventsOf_cons_other (Action.read ch) _ rfl, eventsOf_cons_sent]
        constructor
        · refine ⟨?_, ih1⟩
          rw [session_state_shaped app h,
            session_state_shaped _ (shape_apply_chunkReceived app h ch.length)]
          rfl
        · simpa [AntubeApp.drain_events] using ih2
      · refine ⟨?_, ?_⟩ <;>
          simp [delayed_collect, if_neg hc, eventsOf, Action.sentEvent,
            AntubeApp.drain_events, observedChainOk, h]

/-- The remaining channel capacity after a collection loop that started
with no capacity is still zero. -/
theorem delayed_collect_zero_chan (cs : List ChunkResult) (buffer : List Nat) :
    (delayed_collect 0 buffer cs).chan = 0 := by
  cases cs with
  | nil => rfl
  | cons c rest => cases c <;> simp [delayed_collect]

/-- With the consumer gone from the start, `stream_video_data` delivers no
events. -/
theorem stream_video_data_zero_events (streamRes : Except String (List ChunkResult))
    (createRes eosRes : Except String Unit) :
    eventsOf (stream_video_data streamRes createRes eosRes 0) = [] := by
  cases streamRes with
  | error m =>
    have ht : (trySend 0 (StreamEvent.streamError m)).1 = [] := by simp [trySend]
    simp only [stream_video_data, ht, List.nil_append]
    rfl
  | ok cs =>
    have hz := delayed_collect_zero_events cs []
    have hch := delayed_collect_zero_chan cs []
    simp only [stream_video_data, process_stream_with_delayed_pipeline]
    cases herr : (delayed_collect 0 [] cs).err with
    | some m =>
      simp only [herr]
      rw [hch]
      have ht : (trySend 0 (StreamEvent.streamError m)).1 = [] := by simp [trySend]
      rw [ht, List.append_nil, eventsOf_append, hz, List.nil_append]
      rfl
    | none =>
      cases createRes with
      | error e =>
        simp only [herr]
        rw [hch]
        have ht : (trySend 0 (StreamEvent.streamError
            ("Failed to create video streamer: " ++ e))).1 = [] := by simp [trySend]
        rw [ht, List.append_nil, eventsOf_append, hz, List.nil_append]
        rfl
      | ok u =>
        cases eosRes with
        | error e2 =>
          simp only [herr]
          rw [hch]
          have ht : (trySend 0 (StreamEvent.streamError
              ("Failed to signal end of stream: " ++ e2))).1 = [] := by simp [trySend]
          rw [ht, List.append_nil, List.append_assoc, eventsOf_append, hz,
            List.nil_append]
          rfl
        | ok u2 =>
          simp only [herr]
          rw [hch]
          have ht : (trySend 0 StreamEvent.streamComplete).1 = [] := by simp [trySend]
          rw [ht, List.append_nil, List.append_assoc, eventsOf_append, hz,
            List.nil_append]
          rfl

/-- With the consumer gone from the start, a whole session task delivers
no events. -/
theorem run_zero_events (server : ServerMsg) (eagerRes : Except String Unit)
    (streamRes : Except String (List ChunkResult))
    (createRes eosRes : Except String Unit) :
    eventsOf (run_streaming_task server eagerRes streamRes createRes eosRes 0) = [] := by
  cases server with
  | failed m => simp [run_streaming_task, trySend, eventsOf]
  | channelDropped => simp [run_streaming_task, trySend, eventsOf]
  | connected =>
    cases eagerRes with
    | error e => simp [run_streaming_task, trySend, eventsOf]
    | ok u =>
      have h0 : trySend 0 StreamEvent.serverConnected = ([], 0) := by
        simp [trySend]
      have h1 : trySend 0 StreamEvent.videoStreamerReady = ([], 0) := by
        simp [trySend]
      simp only [run_streaming_task, h0, h1, List.nil_append, List.singleton_append]
      rw [eventsOf_cons_sinkCreate, stream_video_data_zero_events]

/-- From a streaming-shaped state, all events delivered by
`stream_video_data` (for any stream outcome, sink outcomes and capacity)
move along automaton edges. -/
theorem stream_video_data_chain (streamRes : Except String (List ChunkResult))
    (createRes eosRes : Except String Unit) (n : Nat) (app : AntubeApp)
    (h : StreamingShape app) :
    observedChainOk app (eventsOf (stream_video_data streamRes createRes eosRes n)) := by
  cases streamRes with
  | error m =>
    simp only [stream_video_data, eventsOf_append]
    rw [observedChainOk_append]
    refine ⟨chain_trySend_shaped app n _ h, ?_⟩
    simp [eventsOf, observedChainOk]
  | ok cs =>
    obtain ⟨hch1, hch2⟩ := delayed_collect_chain cs n [] app h
    cases herr : (delayed_collect n [] cs).err with
    | some m =>
      simp only [stream_video_data, process_stream_with_delayed_pipeline, herr]
      rw [List.append_assoc, eventsOf_append, observedChainOk_append]
      refine ⟨hch1, ?_⟩
      rw [eventsOf_append, observedChainOk_append]
      refine ⟨chain_trySend_shaped _ _ _ hch2, ?_⟩
      simp [eventsOf, observedChainOk]
    | none =>
      cases createRes with
      | error e =>
        simp only [stream_video_data, process_stream_with_delayed_pipeline, herr]
        rw [List.append_assoc, eventsOf_append, observedChainOk_append]
        refine ⟨hch1, ?_⟩
        rw [eventsOf_append, observedChainOk_append]
        refine ⟨chain_trySend_shaped _ _ _ hch2, ?_⟩
        simp [eventsOf, observedChainOk]
      | ok u =>
        cases eosRes with
        | error e2 =>
          simp only [stream_video_data, process_stream_with_delayed_pipeline, herr]
          rw [List.append_assoc, List.append_assoc, eventsOf_append,
            observedChainOk_append]
          refine ⟨hch1, ?_⟩
          have hmid : eventsOf ([Action.sinkCreate,
              Action.sinkWrite ⟨(delayed_collect n [] cs).buffer, true⟩,
              Action.sinkDrop] ++ ((trySend (delayed_collect n [] cs).chan
                (.streamError ("Failed to signal end of stream: " ++ e2))).1 ++
                [Action.sinkDrop])) =
              eventsOf ((trySend (delayed_collect n [] cs).chan
                (.streamError ("Failed to signal end of stream: " ++ e2))).1 ++
                [Action.sinkDrop]) := by
            simp [eventsOf_append, eventsOf, Action.sentEvent]
          rw [hmid, eventsOf_append, observedChainOk_append]
          refine ⟨chain_trySend_shaped _ _ _ hch2, ?_⟩
          simp [eventsOf, observedChainOk]
        | ok u2 =>
          simp only [stream_video_data, process_stream_with_delayed_pipeline, herr]
          rw [List.append_assoc, List.append_assoc, eventsOf_append,
            observedChainOk_append]
          refine ⟨hch1, ?_⟩
          have hmid : eventsOf ([Action.sinkCreate,
              Action.sinkWrite ⟨(delayed_collect n [] cs).buffer, true⟩,
              Action.sinkEos, Action.sleepSecs 120, Action.sinkDrop] ++
                ((trySend (delayed_collect n [] cs).chan .streamComplete).1 ++
                  [Action.sinkDrop])) =
              eventsOf ((trySend (delayed_collect n [] cs).chan
                .streamComplete).1 ++ [Action.sinkDrop]) := by
            simp [eventsOf_append, eventsOf, Action.sentEvent]
          rw [hmid, eventsOf_append, observedChainOk_append]
          refine ⟨chain_trySend_shaped _ _ _ hch2, ?_⟩
          simp [eventsOf, observedChainOk]

/-- From any state that is still connecting, the whole session's delivered
events move along automaton edges. -/
theorem run_chain_from_connecting (app : AntubeApp) (h : app.is_connecting = true)
    (server : ServerMsg) (eagerRes : Except String Unit)
    (streamRes : Except String (List ChunkResult))
    (createRes eosRes : Except String Unit) (chan : Nat) :
    observedChainOk app
      (eventsOf (run_streaming_task server eagerRes streamRes createRes eosRes chan)) := by
  have hconn : app.session_state = SState.connecting := by
    simp [AntubeApp.session_state, h]
  cases server with
  | failed m =>
    simp only [run_streaming_task]
    rw [eventsOf_trySend]
    split
    · refine ⟨?_, trivial⟩
      rw [hconn]
      simp [AntubeApp.apply_stream_event, AntubeApp.session_state, SState.stepOk]
    · trivial
  | channelDropped =>
    simp only [run_streaming_task]
    rw [eventsOf_trySend]
    split
    · refine ⟨?_, trivial⟩
      rw [hconn]
      simp [AntubeApp.apply_stream_event, AntubeApp.session_state, SState.stepOk]
    · trivial
  | connected =>
    by_cases hc : 0 < chan
    · have hs1 : trySend chan .serverConnected =
          ([Action.sent .serverConnected], chan - 1) := by
        simp [trySend, hc]
      have happ : StreamingShape (app.apply_stream_event .serverConnected) :=
        shape_apply_serverConnected app
      cases eagerRes with
      | error e =>
        simp only [run_streaming_task, hs1, List.singleton_append,
          eventsOf_cons_sent]
        refine ⟨?_, ?_⟩
        · rw [hconn, session_state_shaped _ happ]; rfl
        · exact chain_trySend_shaped _ _ _ happ
      | ok u =>
        simp only [run_streaming_task, hs1, List.singleton_append,
          eventsOf_cons_sent, eventsOf_cons_sinkCreate, eventsOf_append,
          List.append_eq]
        refine ⟨?_, ?_⟩
        · rw [hconn, session_state_shaped _ happ]; rfl
        · exact (observedChainOk_append _ _ _).2
            ⟨chain_trySend_shaped _ _ _ happ,
             stream_video_data_chain _ _ _ _ _ (drain_trySend_vsr_shaped _ _ happ)⟩
    · have hzero : chan = 0 := by omega
      subst hzero
      rw [run_zero_events]
      trivial

/-- C6: for every session (every server outcome, sink outcomes, chunk
stream and channel capacity), the consumer starts a new session in
`Connecting`, and each successively applied event moves the observed
session state along an edge of the automaton
`Connecting → Streaming → (Completed | Error)` / `Connecting → Error`: no
transition is skipped or reversed, and since terminal states have no
outgoing edges, no event ever follows a terminal state back into
`Connecting` or `Streaming`. -/
theorem claim_C6_state_automaton (app0 : AntubeApp) (server : ServerMsg)
    (eagerRes : Except String Unit) (streamRes : Except String (List ChunkResult))
    (createRes eosRes : Except String Unit) (chan : Nat) :
    (AntubeApp.connect_and_stream_reset app0).session_state = SState.connecting ∧
    observedChainOk (AntubeApp.connect_and_stream_reset app0)
      (eventsOf (run_streaming_task server eagerRes streamRes createRes eosRes chan)) := by
  constructor
  · simp [AntubeApp.connect_and_stream_reset, AntubeApp.session_state]
  · exact run_chain_from_connecting _ (by simp [AntubeApp.connect_and_stream_reset])
      server eagerRes streamRes createRes eosRes chan

end AntTube
